import Mathlib

/-!
# minivtun: message layout (minivtun.h) and the driver `main` (minivtun.c)

A shallow embedding of the two source files.

* `minivtun.h` declares the opcode enumeration and the packed wire structure
  `struct minivtun_msg`.  Packed aggregates are modelled by their member lists;
  sizes and offsets are computed from those lists.
* `minivtun.c` holds the global configuration and `main`.  `main` sees its
  command line only through the successive results of the C library routine
  `getopt`, so a command line is modelled as the list of those results
  (option character and `optarg`).  The operating system (opening and naming
  the tunnel device, `fopen`) is a parameter `Env`.  A write past the end of a
  fixed-size buffer is undefined behaviour in C and is a distinct outcome.
  Console output is not modelled.
* `run_client` and `run_server` are declared in minivtun.h and called by `main`,
  but their code is in neither file; what they do is modelled from the
  specification, in definitions marked as such.
-/

namespace Minivtun

/-! ## minivtun.h -/

/-- A member of a packed C aggregate: its name and its size in bytes. -/
structure Member where
  name : String
  size : Nat

/-- Size of a packed struct: the members follow one another without padding. -/
def packedSizeof : List Member → Nat
  | [] => 0
  | m :: ms => m.size + packedSizeof ms

/-- Offset of a named member in a packed struct: the sizes of the members before it. -/
def packedOffsetof : List Member → String → Option Nat
  | [], _ => none
  | m :: ms, n => if m.name = n then some 0 else (packedOffsetof ms n).map (m.size + ·)

/-- Size of a union of byte-aligned members: the largest member. -/
def unionSizeof : List Member → Nat
  | [] => 0
  | m :: ms => max m.size (unionSizeof ms)

/-- The enumerators of the anonymous `enum` in declaration order; an enumerator
without initialiser has the value of its position. -/
def opcodeEnum : List String :=
  ["MINIVTUN_MSG_NOOP", "MINIVTUN_MSG_IPDATA", "MINIVTUN_MSG_DISCONNECT"]

/-- Value of an enumerator: its position in the declaration. -/
def enumValue : List String → String → Option Nat
  | [], _ => none
  | e :: es, n => if e = n then some 0 else (enumValue es n).map (1 + ·)

def MINIVTUN_MSG_NOOP : Option Nat := enumValue opcodeEnum "MINIVTUN_MSG_NOOP"
def MINIVTUN_MSG_IPDATA : Option Nat := enumValue opcodeEnum "MINIVTUN_MSG_IPDATA"
def MINIVTUN_MSG_DISCONNECT : Option Nat := enumValue opcodeEnum "MINIVTUN_MSG_DISCONNECT"

/-- Members of `hdr`: `char passwd_md5sum[16]; __u8 opcode;` (packed). -/
def hdr : List Member :=
  [⟨"passwd_md5sum", 16 * 1⟩, ⟨"opcode", 1⟩]

/-- Members of `ipdata`: `__be16 proto; __be16 ip_dlen; char data[1024 * 8];` (packed). -/
def ipdata : List Member :=
  [⟨"proto", 2⟩, ⟨"ip_dlen", 2⟩, ⟨"data", (1024 * 8) * 1⟩]

/-- The anonymous union of `struct minivtun_msg`; its only member is `ipdata`. -/
def msgUnion : List Member :=
  [⟨"ipdata", packedSizeof ipdata⟩]

/-- Members of `struct minivtun_msg` (packed): `hdr`, then the anonymous union. -/
def minivtun_msg : List Member :=
  [⟨"hdr", packedSizeof hdr⟩, ⟨"union", unionSizeof msgUnion⟩]

/-- The macro `sizeof(((struct minivtun_msg *)0)->hdr)`. -/
def MINIVTUN_MSG_BASIC_HLEN : Nat := packedSizeof hdr

/-- Offset of a member of `ipdata` within `struct minivtun_msg`: the offset of
the union, plus 0 for the union member, plus the offset inside `ipdata`. -/
def ipdataOffsetof (field : String) : Option Nat :=
  match packedOffsetof minivtun_msg "union", packedOffsetof ipdata field with
  | some a, some b => some (a + b)
  | _, _ => none

/-- The macro `offsetof(struct minivtun_msg, ipdata.data)`. -/
def MINIVTUN_MSG_IPDATA_OFFSET : Option Nat := ipdataOffsetof "data"

/-- Size of a named member of a member list. -/
def memberSize : List Member → String → Option Nat
  | [], _ => none
  | m :: ms, n => if m.name = n then some m.size else memberSize ms n

/-! ## C strings and the C library routines used by `main` -/

/-- A C string: the characters before the terminating NUL, one per byte. -/
abbrev CStr := List Char

/-- The result of `strlen`. -/
def strlen (s : CStr) : Nat := s.length

/-- The result of `strchr(s, c)` as an index into `s`; `none` is the NULL pointer. -/
def strchr : CStr → Char → Option Nat
  | [], _ => none
  | x :: xs, c => if x = c then some 0 else (strchr xs c).map (1 + ·)

/-- The largest `unsigned long` (LP64). -/
def ULONG_MAX : Nat := 2 ^ 64 - 1

/-- The largest `unsigned`. -/
def UINT_MAX : Nat := 2 ^ 32 - 1

/-- The C library predicate `isspace` in the C locale. -/
def isspace (c : Char) : Bool :=
  c.toNat = 32 || (9 ≤ c.toNat && c.toNat ≤ 13)

/-- Value of the longest prefix of decimal digits, starting from `acc`. -/
def digitsValue (acc : Nat) : CStr → Nat
  | [] => acc
  | c :: cs => if c.isDigit then digitsValue (10 * acc + (c.toNat - 48)) cs else acc

/-- The C library routine `strtoul(s, NULL, 10)`: leading white space is skipped,
an optional sign is read, then the longest run of decimal digits; a value that
does not fit is `ULONG_MAX`, and a minus sign negates within `unsigned long`. -/
def strtoul (s : CStr) : Nat :=
  let t := s.dropWhile isspace
  let neg := t.head? = some '-'
  let d := if t.head? = some '-' ∨ t.head? = some '+' then t.tail else t
  let v := digitsValue 0 d
  if v > ULONG_MAX then ULONG_MAX
  else if neg then (ULONG_MAX + 1 - v) % (ULONG_MAX + 1)
  else v

/-- The conversion `(unsigned)x` of an `unsigned long`. -/
def toUnsigned (x : Nat) : Nat := x % (UINT_MAX + 1)

/-- An argument of `sprintf`. -/
inductive FmtArg where
  | s (v : CStr)
  | u (v : Nat)

/-- Output of the conversion `%u`: the decimal digits of an `unsigned`. -/
def fmtUnsigned (v : Nat) : CStr := Nat.toDigits 10 v

/-- The text produced by `sprintf` for a format using `%s` and `%u`. -/
def format : CStr → List FmtArg → CStr
  | [], _ => []
  | [c], _ => [c]
  | c :: d :: rest, args =>
    if c = '%' ∧ d = 's' then
      match args with
      | FmtArg.s v :: more => v ++ format rest more
      | _ => []
    else if c = '%' ∧ d = 'u' then
      match args with
      | FmtArg.u v :: more => fmtUnsigned v ++ format rest more
      | _ => []
    else c :: format (d :: rest) args

/-- The call `sprintf(buf, fmt, ...)` into a buffer of `size` bytes: the text,
or `none` when the text and its terminating NUL do not fit. -/
def sprintf (size : Nat) (fmt : CStr) (args : List FmtArg) : Option CStr :=
  let text := format fmt args
  if strlen text + 1 ≤ size then some text else none

/-! ## minivtun.c -/

/-- The global variables of minivtun.c that `main` reads or writes. -/
structure Globals where
  g_keepalive_timeo : Nat
  g_reconnect_timeo : Nat
  g_pid_file : Option CStr
  g_devname : CStr
  g_tun_mtu : Nat
deriving DecidableEq

/-- The initialisers of the globals; `g_devname` is zero-initialised. -/
def Globals.init : Globals :=
  ⟨7, 26, none, [], 1408⟩

/-- Capacity of `char g_devname[20]`. -/
def sizeof_g_devname : Nat := 20

/-- Capacity of `char cmd[100]` in `main`. -/
def sizeof_cmd : Nat := 100

/-- Capacity of `char s_lip[20]` in `main`. -/
def sizeof_s_lip : Nat := 20

/-- The constant `IFNAMSIZ` of linux/if.h, the size of `ifr.ifr_name`. -/
def IFNAMSIZ : Nat := 16

/-- The local variables of `main` set by the option loop; `none` is NULL. -/
structure Locals where
  tun_ip_set : Option CStr
  tun_ip6_set : Option CStr
  loc_addr_pair : Option CStr
  peer_addr_pair : Option CStr
  crypto_passwd : Option CStr
  in_background : Bool
deriving DecidableEq

/-- The initialisers of the locals; `crypto_passwd` starts as the empty string. -/
def Locals.init : Locals :=
  ⟨none, none, none, none, some [], false⟩

/-- One result of `getopt`: the character it returned and `optarg`. -/
structure GetoptResult where
  opt : Char
  optarg : CStr
deriving DecidableEq

/-- The body of the `switch (opt)` in `main`: the updated variables, or the
status passed to `exit`. -/
def optionCase (g : Globals) (l : Locals) (r : GetoptResult) : Except Nat (Globals × Locals) :=
  if r.opt = 'l' then .ok (g, { l with loc_addr_pair := some r.optarg })
  else if r.opt = 'r' then .ok (g, { l with peer_addr_pair := some r.optarg })
  else if r.opt = 'a' then .ok (g, { l with tun_ip_set := some r.optarg })
  else if r.opt = 'A' then .ok (g, { l with tun_ip6_set := some r.optarg })
  else if r.opt = 'm' then .ok ({ g with g_tun_mtu := toUnsigned (strtoul r.optarg) }, l)
  else if r.opt = 't' then .ok ({ g with g_keepalive_timeo := toUnsigned (strtoul r.optarg) }, l)
  else if r.opt = 'n' then .ok ({ g with g_devname := r.optarg.take (sizeof_g_devname - 1) }, l)
  else if r.opt = 'p' then .ok ({ g with g_pid_file := some r.optarg }, l)
  else if r.opt = 'e' then .ok (g, { l with crypto_passwd := some r.optarg })
  else if r.opt = 'N' then .ok (g, { l with crypto_passwd := none })
  else if r.opt = 'd' then .ok (g, { l with in_background := true })
  else if r.opt = 'h' then .error 0
  else if r.opt = '?' then .error 1
  else .ok (g, l)

/-- The loop `while ((opt = getopt(...)) != -1)` over the results of `getopt`. -/
def optionLoop (g : Globals) (l : Locals) : List GetoptResult → Except Nat (Globals × Locals)
  | [] => .ok (g, l)
  | r :: rs =>
    match optionCase g l r with
    | .error status => .error status
    | .ok (g1, l1) => optionLoop g1 l1 rs

/-- The operating system as `main` meets it. -/
structure Env where
  /-- Whether opening /dev/net/tun or else /dev/tun succeeds. -/
  open_tun : Bool
  /-- The ioctl TUNSETIFF: the interface name the kernel stores in `ifr.ifr_name`
  for the requested name, or failure. -/
  tunsetiff : CStr → Option CStr
  /-- Whether `fopen(path, "w")` succeeds. -/
  fopen_w : CStr → Bool

/-- The routine `tun_alloc(dev)`: on success the name copied back into `dev`
(a descriptor was obtained), `none` for a negative result.  The field
`ifr.ifr_name` has `IFNAMSIZ` bytes, so a name in it has fewer characters. -/
def tun_alloc (env : Env) (dev : CStr) : Option CStr :=
  if env.open_tun then
    let ifr_name := if strlen dev ≠ 0 then dev.take IFNAMSIZ else []
    match env.tunsetiff ifr_name with
    | none => none
    | some name => some (name.take (IFNAMSIZ - 1))
  else none

/-- What `main` does to the outside world: a shell command run by `system`,
the call of `do_daemonize` (declared in library.h), the writing of the PID
file. -/
inductive Effect where
  | system (cmd : CStr)
  | do_daemonize
  | write_pid_file (path : CStr)
deriving DecidableEq

/-- How `main` ends: a call of `exit`, the call of one of the two roles (after
which `main` only returns 0), or a write past the end of a buffer. -/
inductive Outcome where
  | exit (status : Nat)
  | run_server (g : Globals) (crypto_passwd : Option CStr) (loc_addr_pair : CStr)
  | run_client (g : Globals) (crypto_passwd : Option CStr) (peer_addr_pair : CStr)
  | buffer_overrun
deriving DecidableEq

/-- A run of `main`: its effects in order, and how it ended. -/
structure Run where
  trace : List Effect
  outcome : Outcome
deriving DecidableEq

/-- The block "Configure IPv4 address for the interface". -/
def configure_ipv4 (g : Globals) (l : Locals) : Except Outcome (List Effect) :=
  match l.tun_ip_set with
  | none => .ok []
  | some tun_ip_set =>
    match strchr tun_ip_set '/' with
    | none => .error (.exit 1)
    | some k =>
      -- strncpy(s_lip, tun_ip_set, k) writes k bytes, then s_lip[k] is written
      if k ≤ sizeof_s_lip ∧ k < sizeof_s_lip then
        let s_lip := tun_ip_set.take k
        let s_rip := tun_ip_set.drop (k + 1)
        match sprintf sizeof_cmd "ifconfig %s %s pointopoint %s".toList
            [.s g.g_devname, .s s_lip, .s s_rip] with
        | none => .error .buffer_overrun
        | some cmd => .ok [.system cmd]
      else .error .buffer_overrun

/-- The block "Configure IPv6 address if set". -/
def configure_ipv6 (g : Globals) (l : Locals) : Except Outcome (List Effect) :=
  match l.tun_ip6_set with
  | none => .ok []
  | some tun_ip6_set =>
    match sprintf sizeof_cmd "ifconfig %s add %s".toList [.s g.g_devname, .s tun_ip6_set] with
    | none => .error .buffer_overrun
    | some cmd => .ok [.system cmd]

/-- The block "Always bring it up with proper MTU size". -/
def bring_up (g : Globals) : Except Outcome (List Effect) :=
  match sprintf sizeof_cmd "ifconfig %s mtu %u; ifconfig %s up".toList
      [.s g.g_devname, .u g.g_tun_mtu, .s g.g_devname] with
  | none => .error .buffer_overrun
  | some cmd => .ok [.system cmd]

/-- The blocks "Run in background" and the writing of the PID file. -/
def background_and_pid (env : Env) (g : Globals) (l : Locals) : List Effect :=
  (if l.in_background then [Effect.do_daemonize] else []) ++
  (match g.g_pid_file with
   | none => []
   | some path => if env.fopen_w path then [Effect.write_pid_file path] else [])

/-- The final `if (loc_addr_pair) ... else if (peer_addr_pair) ... else ...`. -/
def select_role (g : Globals) (l : Locals) : Outcome :=
  match l.loc_addr_pair with
  | some loc => .run_server g l.crypto_passwd loc
  | none =>
    match l.peer_addr_pair with
    | some peer => .run_client g l.crypto_passwd peer
    | none => .exit 1

deriving instance DecidableEq for Except

/-- The part of `main` from the option loop to the writing of the PID file:
a run that ended there, or the effects so far and the variables with which
the final `if` is reached. -/
def main_setup (env : Env) (args : List GetoptResult) :
    Except Run (List Effect × Globals × Locals) :=
  match optionLoop Globals.init Locals.init args with
  | .error status => .error ⟨[], .exit status⟩
  | .ok (g, l) =>
    let g1 := if strlen g.g_devname = 0 then { g with g_devname := "p2p%d".toList } else g
    match tun_alloc env g1.g_devname with
    | none => .error ⟨[], .exit 1⟩
    | some dev =>
      let g2 := { g1 with g_devname := dev }
      match configure_ipv4 g2 l with
      | .error o => .error ⟨[], o⟩
      | .ok t4 =>
        match configure_ipv6 g2 l with
        | .error o => .error ⟨t4, o⟩
        | .ok t6 =>
          match bring_up g2 with
          | .error o => .error ⟨t4 ++ t6, o⟩
          | .ok tu => .ok (t4 ++ t6 ++ tu ++ background_and_pid env g2 l, g2, l)

/-- The function `main`, on the results `getopt` yields for the command line. -/
def main (env : Env) (args : List GetoptResult) : Run :=
  match main_setup env args with
  | .error run => run
  | .ok (t, g, l) => ⟨t, select_role g l⟩

/-! ## The two roles

minivtun.h declares `run_client` and `run_server`, and `main` calls them, but
their code is not part of the two source files.  What they do after `main` has
started them is taken from the specification of the session state machine
(4.4), the peer table (4.3) and the relay loop (4.5, 5).  A fatal device error
(7) is not an orderly shutdown and has no part in this model. -/

/-- Modelled from the spec: a transport endpoint (IP and port), held by the
missing code of `run_client` / `run_server`; written as in the address options. -/
abbrev Endpoint := CStr

/-- Modelled from the spec: a datagram handed to the missing relay loop by the
socket, after decryption and decoding (4.5): its source, whether it passed the
length and digest checks (4.1), its opcode and the embedded packet. -/
structure Datagram where
  src : Endpoint
  valid : Bool
  opcode : Nat
  payload : List Nat
deriving DecidableEq

/-- Modelled from the spec: the Client Session of the missing `run_client` (3):
the address the operator supplied, the address currently believed reachable,
the time of the last valid packet and of the last keepalive sent. -/
structure ClientSession where
  configured_peer_addr : Endpoint
  active_peer_addr : Endpoint
  last_rx_time : Nat
  last_tx_keepalive_time : Nat
deriving DecidableEq

/-- Modelled from the spec: a Peer Entry of the missing `run_server` (3):
the endpoint most recently used by the peer and the time of its last valid
message. -/
structure PeerEntry where
  endpoint : Endpoint
  last_seen : Nat
deriving DecidableEq

/-- Modelled from the spec: the state owned by the missing relay loop: the
client session, or the server's peer table, which for the single shared secret
holds at most the one tunnel's entry (4.3). -/
inductive Session where
  | client (s : ClientSession)
  | server (table : Option PeerEntry)
deriving DecidableEq

/-- Modelled from the spec: what the missing relay loop does to the outside
world: a datagram sent to an endpoint (opcode and length in bytes), or a packet
written to the interface. -/
inductive NetEffect where
  | sendto (dst : Endpoint) (opcode : Option Nat) (len : Nat)
  | tun_write (pkt : List Nat)
deriving DecidableEq

/-- Modelled from the spec: one iteration of the missing relay loop (4.5, 5):
the socket or the interface is ready, the timer fired, or the shutdown flag was
found set; each carries the time of the iteration. -/
inductive LoopEvent where
  | socket_ready (now : Nat) (d : Datagram)
  | interface_ready (now : Nat) (pkt : List Nat)
  | timer_tick (now : Nat)
  | shutdown (now : Nat)
deriving DecidableEq

/-- Modelled from the spec: length of an IPDATA message of the missing relay
loop: the header up to the payload, then the embedded packet (6). -/
def ipdataLength (pkt : List Nat) : Nat :=
  MINIVTUN_MSG_IPDATA_OFFSET.getD 0 + pkt.length

/-- Modelled from the spec: the missing client's reaction to a datagram (4.4):
an invalid one is dropped; a valid one updates `last_rx_time` and its source is
adopted as `active_peer_addr`; IPDATA is written to the interface; DISCONNECT
is treated as a liveness failure, the active address is reset to the
configured one. -/
def client_receive (s : ClientSession) (now : Nat) (d : Datagram) :
    ClientSession × List NetEffect :=
  if d.valid then
    let s1 := { s with last_rx_time := now, active_peer_addr := d.src }
    if some d.opcode = MINIVTUN_MSG_DISCONNECT then
      ({ s1 with active_peer_addr := s1.configured_peer_addr }, [])
    else if some d.opcode = MINIVTUN_MSG_IPDATA then (s1, [.tun_write d.payload])
    else (s1, [])
  else (s, [])

/-- Modelled from the spec: the missing client's timer tick (4.4): a NOOP
keepalive to `active_peer_addr` when the keepalive period has passed since the
last one, then the liveness check, which resets `active_peer_addr` to the
configured address when nothing was received for more than the reconnect
timeout. -/
def client_tick (g : Globals) (s : ClientSession) (now : Nat) :
    ClientSession × List NetEffect :=
  let sent := g.g_keepalive_timeo ≤ now - s.last_tx_keepalive_time
  let s1 := if sent then { s with last_tx_keepalive_time := now } else s
  let s2 := if g.g_reconnect_timeo < now - s1.last_rx_time then
      { s1 with active_peer_addr := s1.configured_peer_addr } else s1
  (s2, if sent then [.sendto s.active_peer_addr MINIVTUN_MSG_NOOP MINIVTUN_MSG_BASIC_HLEN]
       else [])

/-- Modelled from the spec: the operation `observe` of the missing peer table
(4.3): the entry is created or refreshed with the endpoint and the time. -/
def observe (_table : Option PeerEntry) (endpoint : Endpoint) (now : Nat) : Option PeerEntry :=
  some ⟨endpoint, now⟩

/-- Modelled from the spec: the operation `sweep` of the missing peer table
(4.3): an entry whose `last_seen` is older than the staleness threshold is
removed. -/
def sweep (table : Option PeerEntry) (now threshold : Nat) : Option PeerEntry :=
  match table with
  | none => none
  | some e => if threshold < now - e.last_seen then none else some e

/-- Modelled from the spec: the operation `route_lookup` of the missing peer
table (4.3, 3): the most recently observed endpoint, nothing when there is no
entry or the entry is logically expired. -/
def route_lookup (table : Option PeerEntry) (now threshold : Nat) : Option Endpoint :=
  match sweep table now threshold with
  | none => none
  | some e => some e.endpoint

/-- Modelled from the spec: the missing server's reaction to a datagram (4.3,
4.5): an invalid one is dropped; DISCONNECT removes the entry; any other valid
one is observed, and IPDATA is written to the interface. -/
def server_receive (table : Option PeerEntry) (now : Nat) (d : Datagram) :
    Option PeerEntry × List NetEffect :=
  if d.valid then
    if some d.opcode = MINIVTUN_MSG_DISCONNECT then (none, [])
    else if some d.opcode = MINIVTUN_MSG_IPDATA then
      (observe table d.src now, [.tun_write d.payload])
    else (observe table d.src now, [])
  else (table, [])

/-- Modelled from the spec: the current peer address of the missing relay loop
(4.5): the client's `active_peer_addr`, the server's routed endpoint; the
staleness threshold is the reconnect timeout (6). -/
def current_peer (g : Globals) (s : Session) (now : Nat) : Option Endpoint :=
  match s with
  | .client c => some c.active_peer_addr
  | .server table => route_lookup table now g.g_reconnect_timeo

/-- Modelled from the spec: one iteration of the missing relay loop other than
shutdown (4.5): a datagram is dispatched, a packet from the interface is sent
as IPDATA to the current peer or dropped when there is none, a timer tick runs
the keepalive and liveness logic or the table sweep. -/
def relay_step (g : Globals) (s : Session) (e : LoopEvent) : Session × List NetEffect :=
  match s, e with
  | .client c, .socket_ready now d =>
    ((client_receive c now d).1 |> Session.client, (client_receive c now d).2)
  | .server t, .socket_ready now d =>
    ((server_receive t now d).1 |> Session.server, (server_receive t now d).2)
  | s, .interface_ready now pkt =>
    (s, match current_peer g s now with
        | some peer => [.sendto peer MINIVTUN_MSG_IPDATA (ipdataLength pkt)]
        | none => [])
  | .client c, .timer_tick now =>
    ((client_tick g c now).1 |> Session.client, (client_tick g c now).2)
  | .server t, .timer_tick now => (.server (sweep t now g.g_reconnect_timeo), [])
  | s, .shutdown _ => (s, [])

/-- Modelled from the spec: the disconnect notification of the missing
shutdown routine (4.4): one or two DISCONNECT messages, the bare header, to the
current peer address; nothing when there is no peer.  Whether a send fails is
ignored, so it has no part in what follows. -/
def disconnect_notification (peer : Option Endpoint) (two_notices : Bool) : List NetEffect :=
  match peer with
  | none => []
  | some p =>
    List.replicate (if two_notices then 2 else 1)
      (.sendto p MINIVTUN_MSG_DISCONNECT MINIVTUN_MSG_BASIC_HLEN)

/-- Modelled from the spec: a run of the missing relay loop: its effects, the
session it holds, and whether it has exited or is waiting for readiness. -/
structure SessionRun where
  trace : List NetEffect
  session : Session
  exited : Bool
deriving DecidableEq

/-- Modelled from the spec: the missing relay loop (4.5, 5): the shutdown flag
is checked in each iteration; when it is set the loop attempts the disconnect
notification and exits, otherwise the iteration is processed and the loop
goes on; without a further event it waits. -/
def relay_loop (g : Globals) (two_notices : Bool) : Session → List LoopEvent → SessionRun
  | s, [] => ⟨[], s, false⟩
  | s, e :: es =>
    match e with
    | .shutdown now => ⟨disconnect_notification (current_peer g s now) two_notices, s, true⟩
    | _ =>
      ⟨(relay_step g s e).2 ++ (relay_loop g two_notices (relay_step g s e).1 es).trace,
       (relay_loop g two_notices (relay_step g s e).1 es).session,
       (relay_loop g two_notices (relay_step g s e).1 es).exited⟩

/-- Modelled from the spec: the missing `run_client` (4.4): on start a NOOP
keepalive goes to the configured peer address, which is also the active one;
then the relay loop runs.  Times count from the start. -/
def run_client (g : Globals) (two_notices : Bool) (peer_addr_pair : CStr)
    (events : List LoopEvent) : SessionRun :=
  ⟨NetEffect.sendto peer_addr_pair MINIVTUN_MSG_NOOP MINIVTUN_MSG_BASIC_HLEN ::
     (relay_loop g two_notices (.client ⟨peer_addr_pair, peer_addr_pair, 0, 0⟩) events).trace,
   (relay_loop g two_notices (.client ⟨peer_addr_pair, peer_addr_pair, 0, 0⟩) events).session,
   (relay_loop g two_notices (.client ⟨peer_addr_pair, peer_addr_pair, 0, 0⟩) events).exited⟩

/-- Modelled from the spec: the missing `run_server` (4.3): the relay loop on an
empty peer table. -/
def run_server (g : Globals) (two_notices : Bool) (events : List LoopEvent) : SessionRun :=
  relay_loop g two_notices (.server none) events

/-- Modelled from the spec: how the whole program, with the missing roles, can
come to its end: as `main` does before a role is started, or,
once `main` has called a role, with the `return 0` after the role has exited,
or still waiting in the relay loop. -/
inductive ProgramEnd where
  | exit (status : Nat)
  | buffer_overrun
  | waiting
deriving DecidableEq

/-- Modelled from the spec: a run of the whole program, with the missing roles:
the effects of `main`, the effects of the role it started, the globals and
session of that role if one was started, and the end. -/
structure ProgramRun where
  setup : List Effect
  net : List NetEffect
  role : Option (Globals × Session)
  ending : ProgramEnd
deriving DecidableEq

/-- Modelled from the spec: the current peer address of a run of the program
at a time: that of the session of the missing role, nothing when no role was
started. -/
def ProgramRun.peer (r : ProgramRun) (now : Nat) : Option Endpoint :=
  match r.role with
  | none => none
  | some (g, s) => current_peer g s now

/-- The globals with which a role is started, when the outcome is a role. -/
def Outcome.roleGlobals : Outcome → Option Globals
  | .run_server g _ _ => some g
  | .run_client g _ _ => some g
  | _ => none

/-- The passphrase argument with which a role is started, when the outcome is a role. -/
def Outcome.rolePasswd : Outcome → Option (Option CStr)
  | .run_server _ p _ => some p
  | .run_client _ p _ => some p
  | _ => none

/-- Whether the outcome is the call of `run_server`. -/
def Outcome.isServer : Outcome → Bool
  | .run_server _ _ _ => true
  | _ => false

/-- Whether the outcome is the call of `run_client`. -/
def Outcome.isClient : Outcome → Bool
  | .run_client _ _ _ => true
  | _ => false

/-- The argument of the last occurrence of option `c` among the results of `getopt`. -/
def lastArg (c : Char) : List GetoptResult → Option CStr
  | [] => none
  | r :: rs =>
    match lastArg c rs with
    | some a => some a
    | none => if r.opt = c then some r.optarg else none

/-- Whether option `c` occurs among the results of `getopt`. -/
def given (c : Char) (args : List GetoptResult) : Bool :=
  args.any (fun r => r.opt = c)

/-- The value a variable has after the loop when only option `c` sets it:
the conversion of the last argument of `c`, or the value before the loop. -/
def lastOr {α : Type} (c : Char) (args : List GetoptResult) (f : CStr → α) (before : α) : α :=
  match lastArg c args with
  | some a => f a
  | none => before

/-- An outcome that is not the start of a role. -/
def Outcome.noRole (o : Outcome) : Prop :=
  o.isServer = false ∧ o.isClient = false ∧ o.roleGlobals = none ∧ o.rolePasswd = none

/-- Whether the run reaches the final `if` of `main`. -/
def reachesRoleSelection (env : Env) (args : List GetoptResult) : Bool :=
  match main_setup env args with
  | .ok _ => true
  | .error _ => false

/-- An environment in which the device opens and the kernel names it p2p0. -/
def envOk : Env :=
  ⟨true, fun _ => some "p2p0".toList, fun _ => true⟩

/-- The result of `getopt` for an option that takes no argument. -/
def flag (c : Char) : GetoptResult := ⟨c, []⟩

/-- The result of `getopt` for an option with its argument. -/
def optWith (c : Char) (arg : String) : GetoptResult := ⟨c, arg.toList⟩

/-! ## The option loop -/

/-- What one pass through the `switch` does to each variable. -/
theorem optionCase_ok {g g1 : Globals} {l l1 : Locals} {r : GetoptResult}
    (h : optionCase g l r = .ok (g1, l1)) :
    g1.g_reconnect_timeo = g.g_reconnect_timeo ∧
    g1.g_keepalive_timeo =
      (if r.opt = 't' then toUnsigned (strtoul r.optarg) else g.g_keepalive_timeo) ∧
    g1.g_tun_mtu = (if r.opt = 'm' then toUnsigned (strtoul r.optarg) else g.g_tun_mtu) ∧
    l1.loc_addr_pair = (if r.opt = 'l' then some r.optarg else l.loc_addr_pair) ∧
    l1.peer_addr_pair = (if r.opt = 'r' then some r.optarg else l.peer_addr_pair) ∧
    l1.crypto_passwd =
      (if r.opt = 'e' then some r.optarg else if r.opt = 'N' then none else l.crypto_passwd) ∧
    r.opt ≠ 'h' ∧ r.opt ≠ '?' := by
  simp only [optionCase] at h
  by_cases h1 : r.opt = 'l'
  · rw [if_pos h1] at h; cases h; simp [h1]
  rw [if_neg h1] at h
  by_cases h2 : r.opt = 'r'
  · rw [if_pos h2] at h; cases h; simp [h2]
  rw [if_neg h2] at h
  by_cases h3 : r.opt = 'a'
  · rw [if_pos h3] at h; cases h; simp [h3]
  rw [if_neg h3] at h
  by_cases h4 : r.opt = 'A'
  · rw [if_pos h4] at h; cases h; simp [h4]
  rw [if_neg h4] at h
  by_cases h5 : r.opt = 'm'
  · rw [if_pos h5] at h; cases h; simp [h5]
  rw [if_neg h5] at h
  by_cases h6 : r.opt = 't'
  · rw [if_pos h6] at h; cases h; simp [h6]
  rw [if_neg h6] at h
  by_cases h7 : r.opt = 'n'
  · rw [if_pos h7] at h; cases h; simp [h7]
  rw [if_neg h7] at h
  by_cases h8 : r.opt = 'p'
  · rw [if_pos h8] at h; cases h; simp [h8]
  rw [if_neg h8] at h
  by_cases h9 : r.opt = 'e'
  · rw [if_pos h9] at h; cases h; simp [h9]
  rw [if_neg h9] at h
  by_cases h10 : r.opt = 'N'
  · rw [if_pos h10] at h; cases h; simp [h10]
  rw [if_neg h10] at h
  by_cases h11 : r.opt = 'd'
  · rw [if_pos h11] at h; cases h; simp [h11]
  rw [if_neg h11] at h
  by_cases h12 : r.opt = 'h'
  · rw [if_pos h12] at h; cases h
  rw [if_neg h12] at h
  by_cases h13 : r.opt = '?'
  · rw [if_pos h13] at h; cases h
  rw [if_neg h13] at h
  cases h
  simp [*]

theorem lastOr_nil {α : Type} (c : Char) (f : CStr → α) (b : α) : lastOr c [] f b = b := rfl

theorem lastOr_cons {α : Type} (c : Char) (r : GetoptResult) (rs : List GetoptResult)
    (f : CStr → α) (b : α) :
    lastOr c (r :: rs) f b = lastOr c rs f (if r.opt = c then f r.optarg else b) := by
  unfold lastOr
  simp only [lastArg]
  cases lastArg c rs with
  | some a => rfl
  | none => by_cases hc : r.opt = c <;> simp [hc]

/-- What a completed option loop leaves in each variable. -/
theorem optionLoop_ok {args : List GetoptResult} {g g1 : Globals} {l l1 : Locals}
    (h : optionLoop g l args = .ok (g1, l1)) :
    g1.g_reconnect_timeo = g.g_reconnect_timeo ∧
    g1.g_keepalive_timeo =
      lastOr 't' args (fun a => toUnsigned (strtoul a)) g.g_keepalive_timeo ∧
    g1.g_tun_mtu = lastOr 'm' args (fun a => toUnsigned (strtoul a)) g.g_tun_mtu ∧
    l1.loc_addr_pair = lastOr 'l' args some l.loc_addr_pair ∧
    l1.peer_addr_pair = lastOr 'r' args some l.peer_addr_pair ∧
    given 'h' args = false ∧ given '?' args = false := by
  induction args generalizing g l with
  | nil =>
    simp only [optionLoop] at h
    cases h
    simp [lastOr_nil, given]
  | cons r rs ih =>
    simp only [optionLoop] at h
    cases hc : optionCase g l r with
    | error st => rw [hc] at h; cases h
    | ok p =>
      obtain ⟨g2, l2⟩ := p
      rw [hc] at h
      obtain ⟨a1, a2, a3, a4, a5, _, a7, a8⟩ := optionCase_ok hc
      obtain ⟨b1, b2, b3, b4, b5, b6, b7⟩ := ih h
      simp only [lastOr_cons, given, List.any_cons] at *
      refine ⟨?_, ?_, ?_, ?_, ?_, ?_, ?_⟩
      · rw [b1, a1]
      · rw [b2, a2]
      · rw [b3, a3]
      · rw [b4, a4]
      · rw [b5, a5]
      · simp [a7, b6]
      · simp [a8, b7]

/-- The loop over a concatenation is the loop over the parts in turn. -/
theorem optionLoop_append (xs ys : List GetoptResult) (g : Globals) (l : Locals) :
    optionLoop g l (xs ++ ys) =
      (match optionLoop g l xs with
       | .error st => .error st
       | .ok (g1, l1) => optionLoop g1 l1 ys) := by
  induction xs generalizing g l with
  | nil => simp [optionLoop]
  | cons r rs ih =>
    simp only [List.cons_append, optionLoop]
    cases optionCase g l r with
    | error st => rfl
    | ok p => obtain ⟨g2, l2⟩ := p; exact ih g2 l2

/-- Without a later `-e`, a NULL passphrase stays NULL through the loop. -/
theorem optionLoop_passwd_none {args : List GetoptResult} {g g1 : Globals} {l l1 : Locals}
    (h : optionLoop g l args = .ok (g1, l1)) (hne : given 'e' args = false)
    (h0 : l.crypto_passwd = none) : l1.crypto_passwd = none := by
  induction args generalizing g l with
  | nil => simp only [optionLoop] at h; cases h; exact h0
  | cons r rs ih =>
    simp only [optionLoop] at h
    cases hc : optionCase g l r with
    | error st => rw [hc] at h; cases h
    | ok p =>
      obtain ⟨g2, l2⟩ := p
      rw [hc] at h
      simp only [given, List.any_cons, Bool.or_eq_false_iff, decide_eq_false_iff_not] at hne
      have a6 := (optionCase_ok hc).2.2.2.2.2.1
      apply ih h hne.2
      rw [a6, if_neg hne.1, h0]
      simp

/-- With `-e` given only with the empty string and no `-N`, an empty passphrase
stays the empty string through the loop. -/
theorem optionLoop_passwd_empty {args : List GetoptResult} {g g1 : Globals} {l l1 : Locals}
    (h : optionLoop g l args = .ok (g1, l1))
    (he : ∀ r ∈ args, r.opt = 'e' → r.optarg = [])
    (hN : given 'N' args = false)
    (h0 : l.crypto_passwd = some []) : l1.crypto_passwd = some [] := by
  induction args generalizing g l with
  | nil => simp only [optionLoop] at h; cases h; exact h0
  | cons r rs ih =>
    simp only [optionLoop] at h
    cases hc : optionCase g l r with
    | error st => rw [hc] at h; cases h
    | ok p =>
      obtain ⟨g2, l2⟩ := p
      rw [hc] at h
      simp only [given, List.any_cons, Bool.or_eq_false_iff, decide_eq_false_iff_not] at hN
      have a6 := (optionCase_ok hc).2.2.2.2.2.1
      apply ih h (fun x hx => he x (List.mem_cons_of_mem _ hx)) hN.2
      rw [a6, if_neg hN.1, h0]
      by_cases hce : r.opt = 'e'
      · rw [if_pos hce, he r (List.mem_cons_self _ _) hce]
      · rw [if_neg hce]

/-! ## The rest of `main` -/

theorem configure_ipv4_error {g : Globals} {l : Locals} {o : Outcome}
    (h : configure_ipv4 g l = .error o) : o.noRole := by
  unfold configure_ipv4 at h
  split at h
  · cases h
  · split at h
    · cases h; exact ⟨rfl, rfl, rfl, rfl⟩
    · split at h
      · dsimp only at h
        split at h
        · cases h; exact ⟨rfl, rfl, rfl, rfl⟩
        · cases h
      · cases h; exact ⟨rfl, rfl, rfl, rfl⟩

theorem configure_ipv6_error {g : Globals} {l : Locals} {o : Outcome}
    (h : configure_ipv6 g l = .error o) : o.noRole := by
  unfold configure_ipv6 at h
  split at h
  · cases h
  · split at h
    · cases h; exact ⟨rfl, rfl, rfl, rfl⟩
    · cases h

theorem bring_up_error {g : Globals} {o : Outcome}
    (h : bring_up g = .error o) : o.noRole := by
  unfold bring_up at h
  split at h
  · cases h; exact ⟨rfl, rfl, rfl, rfl⟩
  · cases h

theorem bring_up_ok {g : Globals} {t : List Effect}
    (h : bring_up g = .ok t) : ∃ cmd, t = [Effect.system cmd] := by
  unfold bring_up at h
  split at h
  · cases h
  · cases h; exact ⟨_, rfl⟩

theorem tun_alloc_length {env : Env} {dev name : CStr} (h : tun_alloc env dev = some name) :
    strlen name ≤ IFNAMSIZ - 1 := by
  unfold tun_alloc at h
  split at h
  · dsimp only at h
    split at h
    · cases h
    · cases h
      simp [strlen, List.length_take]
  · cases h

/-- A run that ends before the final `if` starts no role. -/
theorem main_setup_error {env : Env} {args : List GetoptResult} {run : Run}
    (h : main_setup env args = .error run) : run.outcome.noRole := by
  unfold main_setup at h
  split at h
  · cases h; exact ⟨rfl, rfl, rfl, rfl⟩
  · dsimp only at h
    split at h
    · cases h; exact ⟨rfl, rfl, rfl, rfl⟩
    · split at h
      · rename_i o h4
        cases h; exact configure_ipv4_error h4
      · split at h
        · rename_i o h6
          cases h; exact configure_ipv6_error h6
        · split at h
          · rename_i o hu
            cases h
            exact bring_up_error hu
          · cases h

/-- The variables with which the final `if` is reached. -/
theorem main_setup_ok {env : Env} {args : List GetoptResult} {t : List Effect}
    {g : Globals} {l : Locals} (h : main_setup env args = .ok (t, g, l)) :
    ∃ g0, optionLoop Globals.init Locals.init args = .ok (g0, l) ∧
      g.g_keepalive_timeo = g0.g_keepalive_timeo ∧
      g.g_reconnect_timeo = g0.g_reconnect_timeo ∧
      g.g_tun_mtu = g0.g_tun_mtu ∧
      strlen g.g_devname ≤ IFNAMSIZ - 1 ∧
      ∃ cmd, bring_up g = .ok [Effect.system cmd] ∧ Effect.system cmd ∈ t := by
  unfold main_setup at h
  split at h
  · cases h
  · rename_i g0 l0 h0
    dsimp only at h
    split at h
    · cases h
    · rename_i dev hdev
      split at h
      · cases h
      · rename_i t4 h4
        split at h
        · cases h
        · rename_i t6 h6
          split at h
          · cases h
          · rename_i tu hu
            cases h
            obtain ⟨cmd, rfl⟩ := bring_up_ok hu
            refine ⟨g0, h0, ?_, ?_, ?_, tun_alloc_length hdev, cmd, hu, ?_⟩
            · split <;> rfl
            · split <;> rfl
            · split <;> rfl
            · simp

/-- The outcome of `select_role` in terms of the two address variables. -/
theorem select_role_spec (g : Globals) (l : Locals) :
    ((select_role g l).isServer = true ↔ l.loc_addr_pair ≠ none) ∧
    ((select_role g l).isClient = true ↔ l.peer_addr_pair ≠ none ∧ l.loc_addr_pair = none) ∧
    (l.loc_addr_pair = none → l.peer_addr_pair = none → select_role g l = .exit 1) ∧
    (∀ g1, (select_role g l).roleGlobals = some g1 → g1 = g) ∧
    (∀ p, (select_role g l).rolePasswd = some p → p = l.crypto_passwd) := by
  unfold select_role
  cases l.loc_addr_pair with
  | some a => simp [Outcome.isServer, Outcome.isClient, Outcome.roleGlobals, Outcome.rolePasswd, eq_comm]
  | none =>
    cases l.peer_addr_pair with
    | some b => simp [Outcome.isServer, Outcome.isClient, Outcome.roleGlobals, Outcome.rolePasswd, eq_comm]
    | none => simp [Outcome.isServer, Outcome.isClient, Outcome.roleGlobals, Outcome.rolePasswd]

/-- Whenever `main` starts a role, the final `if` was reached, with the globals
and the passphrase handed to the role. -/
theorem main_role {env : Env} {args : List GetoptResult} {g : Globals}
    (h : (main env args).outcome.roleGlobals = some g) :
    ∃ t l, main_setup env args = .ok (t, g, l) ∧
      (main env args).outcome.rolePasswd = some l.crypto_passwd := by
  unfold main at h ⊢
  cases hs : main_setup env args with
  | error run =>
    rw [hs] at h
    have := (main_setup_error hs).2.2.1
    dsimp only at h
    rw [this] at h
    cases h
  | ok p =>
    obtain ⟨t, g1, l⟩ := p
    rw [hs] at h
    dsimp only at h ⊢
    have hg := (select_role_spec g1 l).2.2.2.1 g h
    subst hg
    refine ⟨t, l, rfl, ?_⟩
    unfold select_role at h ⊢
    cases hl : l.loc_addr_pair with
    | some a => rfl
    | none =>
      rw [hl] at h
      cases hp : l.peer_addr_pair with
      | some b => rfl
      | none => rw [hp] at h; cases h

theorem lastArg_eq_none (c : Char) (args : List GetoptResult) :
    lastArg c args = none ↔ given c args = false := by
  induction args with
  | nil => simp [lastArg, given]
  | cons r rs ih =>
    simp only [lastArg, given, List.any_cons, Bool.or_eq_false_iff, decide_eq_false_iff_not]
    unfold given at ih
    cases hl : lastArg c rs with
    | some a =>
      have : ¬ (rs.any (fun r => decide (r.opt = c)) = false) := fun hf => by
        rw [← ih] at hf; rw [hl] at hf; cases hf
      simp [this]
    | none =>
      have : rs.any (fun r => decide (r.opt = c)) = false := ih.mp hl
      by_cases hc : r.opt = c <;> simp [hc, this]

theorem lastOr_some_none (c : Char) (args : List GetoptResult) :
    lastOr c args some none = lastArg c args := by
  unfold lastOr
  cases lastArg c args <;> rfl

theorem lastOr_not_given {α : Type} {c : Char} {args : List GetoptResult}
    (h : given c args = false) (f : CStr → α) (b : α) : lastOr c args f b = b := by
  unfold lastOr
  rw [(lastArg_eq_none c args).mpr h]

/-- The address variables at the final `if`, in terms of the options given. -/
theorem main_setup_addr {env : Env} {args : List GetoptResult} {t : List Effect}
    {g : Globals} {l : Locals} (h : main_setup env args = .ok (t, g, l)) :
    (l.loc_addr_pair ≠ none ↔ given 'l' args = true) ∧
    (l.peer_addr_pair ≠ none ↔ given 'r' args = true) := by
  obtain ⟨g0, h0, -⟩ := main_setup_ok h
  obtain ⟨-, -, -, a4, a5, -, -⟩ := optionLoop_ok h0
  simp only [Locals.init, lastOr_some_none] at a4 a5
  rw [a4, a5]
  constructor
  · rw [Ne, lastArg_eq_none]; simp
  · rw [Ne, lastArg_eq_none]; simp

theorem rolePasswd_roleGlobals {o : Outcome} {p : Option CStr}
    (h : o.rolePasswd = some p) : ∃ g, o.roleGlobals = some g := by
  cases o with
  | exit s => cases h
  | run_server g _ _ => exact ⟨g, rfl⟩
  | run_client g _ _ => exact ⟨g, rfl⟩
  | buffer_overrun => cases h

/-- After a `-N` that no `-e` follows, the passphrase handed to the role is NULL. -/
theorem main_passwd_after_N (env : Env) (before after : List GetoptResult) (x : CStr)
    (p : Option CStr) (hafter : given 'e' after = false)
    (hrole : (main env (before ++ ⟨'N', x⟩ :: after)).outcome.rolePasswd = some p) :
    p = none := by
  obtain ⟨g, hg⟩ := rolePasswd_roleGlobals hrole
  obtain ⟨t, l, hs, hp⟩ := main_role hg
  rw [hp] at hrole
  cases hrole
  obtain ⟨g0, h0, -⟩ := main_setup_ok hs
  rw [optionLoop_append] at h0
  split at h0
  · cases h0
  · rename_i g1 l1 h1
    simp only [optionLoop] at h0
    cases hc : optionCase g1 l1 ⟨'N', x⟩ with
    | error st => rw [hc] at h0; cases h0
    | ok q =>
      obtain ⟨g2, l2⟩ := q
      rw [hc] at h0
      have a6 := (optionCase_ok hc).2.2.2.2.2.1
      exact optionLoop_passwd_none h0 hafter (by rw [a6]; simp)

/-! ## The formatted commands and the IPv4 block -/

/-- The text of the command that brings the interface up. -/
theorem format_bring_up (name : CStr) (mtu : Nat) :
    format "ifconfig %s mtu %u; ifconfig %s up".toList [.s name, .u mtu, .s name] =
      "ifconfig ".toList ++ (name ++ (" mtu ".toList ++ (fmtUnsigned mtu ++
        ("; ifconfig ".toList ++ (name ++ " up".toList))))) := by
  rfl

/-- The text of the command that sets the point-to-point addresses. -/
theorem format_pointopoint (dev lip rip : CStr) :
    format "ifconfig %s %s pointopoint %s".toList [.s dev, .s lip, .s rip] =
      "ifconfig ".toList ++ (dev ++ (" ".toList ++ (lip ++
        (" pointopoint ".toList ++ rip)))) := by
  have h : format "ifconfig %s %s pointopoint %s".toList [.s dev, .s lip, .s rip] =
      "ifconfig ".toList ++ (dev ++ (" ".toList ++ (lip ++
        (" pointopoint ".toList ++ (rip ++ []))))) := rfl
  rw [h, List.append_nil]

/-- The command run by a successful `bring_up` carries the name and the MTU. -/
theorem bring_up_text {g : Globals} {cmd : CStr} (h : bring_up g = .ok [Effect.system cmd]) :
    cmd = "ifconfig ".toList ++ (g.g_devname ++ (" mtu ".toList ++
      (fmtUnsigned g.g_tun_mtu ++ ("; ifconfig ".toList ++
        (g.g_devname ++ " up".toList))))) := by
  unfold bring_up sprintf at h
  dsimp only at h
  split at h
  · cases h
  · rename_i c hc
    split at hc
    · cases hc
      cases h
      exact format_bring_up _ _
    · cases hc

theorem fmtUnsigned_length {v : Nat} (h : v ≤ UINT_MAX) : strlen (fmtUnsigned v) ≤ 10 := by
  have hv : v < 10 ^ 10 := by
    unfold UINT_MAX at h
    omega
  exact Nat.repr_length v 10 (by decide) hv

/-- Where `strchr` finds the character: the text before it does not contain
it, and the string is that text, the character, and the rest. -/
theorem strchr_some {s : CStr} {c : Char} {k : Nat} (h : strchr s c = some k) :
    s = s.take k ++ c :: s.drop (k + 1) ∧ c ∉ s.take k := by
  induction s generalizing k with
  | nil => cases h
  | cons x xs ih =>
    simp only [strchr] at h
    by_cases hx : x = c
    · rw [if_pos hx] at h
      cases h
      simp [hx]
    · rw [if_neg hx] at h
      cases hr : strchr xs c with
      | none => rw [hr] at h; cases h
      | some j =>
        rw [hr] at h
        simp only [Option.map_some'] at h
        cases h
        obtain ⟨e1, e2⟩ := ih hr
        have hj : 1 + j = j + 1 := Nat.add_comm 1 j
        rw [hj]
        simp only [List.take_succ_cons, List.drop_succ_cons, List.cons_append,
          List.mem_cons, not_or]
        exact ⟨by rw [← e1], fun h' => hx h'.symm, e2⟩

/-- The routine `strchr` returns NULL exactly when the character does not occur. -/
theorem strchr_none {s : CStr} {c : Char} : strchr s c = none ↔ c ∉ s := by
  induction s with
  | nil => simp [strchr]
  | cons x xs ih =>
    simp only [strchr, List.mem_cons, not_or]
    by_cases hx : x = c
    · simp [hx]
    · rw [if_neg hx]
      constructor
      · intro h
        cases hr : strchr xs c with
        | none => exact ⟨fun h' => hx h'.symm, ih.mp hr⟩
        | some j => rw [hr] at h; cases h
      · intro h
        rw [ih.mpr h.2]
        rfl

/-- The IPv4 block on an argument without a slash: exit status 1. -/
theorem configure_ipv4_no_slash (g : Globals) (l : Locals) (arg : CStr)
    (h : l.tun_ip_set = some arg) (hno : '/' ∉ arg) :
    configure_ipv4 g l = .error (.exit 1) := by
  unfold configure_ipv4
  rw [h]
  dsimp only
  rw [strchr_none.mpr hno]

/-- The IPv4 block on an argument with a slash, when the text before the slash
fits `s_lip` and the command fits `cmd`: the command run is
`ifconfig <dev> <L> pointopoint <R>` with L the text before the first slash
and R the text after it. -/
theorem configure_ipv4_in_bounds (g : Globals) (l : Locals) (arg : CStr) (k : Nat)
    (h : l.tun_ip_set = some arg) (hk : strchr arg '/' = some k)
    (hlip : k < sizeof_s_lip)
    (hcmd : strlen ("ifconfig ".toList ++ (g.g_devname ++ (" ".toList ++ (arg.take k ++
        (" pointopoint ".toList ++ arg.drop (k + 1)))))) + 1 ≤ sizeof_cmd) :
    configure_ipv4 g l = .ok [Effect.system ("ifconfig ".toList ++ (g.g_devname ++
        (" ".toList ++ (arg.take k ++ (" pointopoint ".toList ++ arg.drop (k + 1))))))] ∧
    arg = arg.take k ++ '/' :: arg.drop (k + 1) ∧ '/' ∉ arg.take k := by
  refine ⟨?_, strchr_some hk⟩
  unfold configure_ipv4
  rw [h]
  dsimp only
  rw [hk]
  dsimp only
  rw [if_pos ⟨Nat.le_of_lt hlip, hlip⟩]
  unfold sprintf
  rw [format_pointopoint]
  dsimp only
  rw [if_pos hcmd]

/-- The IPv4 block on an argument whose first slash is at index 20 or more:
a write past the end of `s_lip`. -/
theorem configure_ipv4_overrun (g : Globals) (l : Locals) (arg : CStr) (k : Nat)
    (h : l.tun_ip_set = some arg) (hk : strchr arg '/' = some k)
    (hlip : sizeof_s_lip ≤ k) :
    configure_ipv4 g l = .error .buffer_overrun := by
  unfold configure_ipv4
  rw [h]
  dsimp only
  rw [hk]
  dsimp only
  rw [if_neg (fun hc => Nat.lt_irrefl _ (Nat.lt_of_lt_of_le hc.2 hlip))]

/-! ## Decimal numerals -/

/-- The decimal digit characters as the C library routines see them. -/
theorem digitChar_facts : ∀ d, d < 10 →
    (Nat.digitChar d).isDigit = true ∧ (Nat.digitChar d).toNat - 48 = d ∧
    isspace (Nat.digitChar d) = false ∧ Nat.digitChar d ≠ '-' ∧ Nat.digitChar d ≠ '+' := by
  decide

/-- Reading back the digits written for `n` appends them to the value read so far. -/
theorem digitsValue_toDigitsCore (f : Nat) : ∀ (n : Nat) (ds : CStr), n < f →
    ∃ k, ∀ acc, digitsValue acc (Nat.toDigitsCore 10 f n ds) = digitsValue (acc * 10 ^ k + n) ds := by
  induction f with
  | zero => intro n ds h; omega
  | succ f ih =>
    intro n ds h
    have hd := digitChar_facts (n % 10) (Nat.mod_lt _ (by decide))
    by_cases h0 : n / 10 = 0
    · refine ⟨1, fun acc => ?_⟩
      simp only [Nat.toDigitsCore, h0, if_true, digitsValue, hd.1, hd.2.1]
      congr 1
      omega
    · obtain ⟨k, hk⟩ := ih (n / 10) (Nat.digitChar (n % 10) :: ds) (by omega)
      refine ⟨k + 1, fun acc => ?_⟩
      simp only [Nat.toDigitsCore, h0, if_false]
      rw [hk]
      simp only [digitsValue, hd.1, hd.2.1, if_true]
      congr 1
      rw [pow_succ]
      have := Nat.div_add_mod n 10
      nlinarith [this]

/-- The text written for a number starts with a digit. -/
theorem toDigitsCore_head (f : Nat) : ∀ (n : Nat) (ds : CStr), n < f →
    ∃ d tl, d < 10 ∧ Nat.toDigitsCore 10 f n ds = Nat.digitChar d :: tl := by
  induction f with
  | zero => intro n ds h; omega
  | succ f ih =>
    intro n ds h
    by_cases h0 : n / 10 = 0
    · exact ⟨n % 10, ds, Nat.mod_lt _ (by decide), by simp [Nat.toDigitsCore, h0]⟩
    · obtain ⟨d, tl, hd, he⟩ := ih (n / 10) (Nat.digitChar (n % 10) :: ds) (by omega)
      exact ⟨d, tl, hd, by simp only [Nat.toDigitsCore, h0, if_false]; exact he⟩

/-- The routine `strtoul` reads a decimal numeral back as its value. -/
theorem strtoul_toDigits (n : Nat) (h : n ≤ ULONG_MAX) : strtoul (Nat.toDigits 10 n) = n := by
  obtain ⟨d, tl, hd, he⟩ := toDigitsCore_head (n + 1) n [] (Nat.lt_succ_self n)
  obtain ⟨k, hk⟩ := digitsValue_toDigitsCore (n + 1) n [] (Nat.lt_succ_self n)
  have hv : digitsValue 0 (Nat.toDigits 10 n) = n := by
    have := hk 0
    simpa [Nat.toDigits, digitsValue] using this
  obtain ⟨-, -, f3, f4, f5⟩ := digitChar_facts d hd
  have ht : (Nat.toDigits 10 n).dropWhile isspace = Nat.toDigits 10 n := by
    unfold Nat.toDigits
    rw [he, List.dropWhile_cons_of_neg (by simp [f3])]
  have hhead : (Nat.toDigits 10 n).head? = some (Nat.digitChar d) := by
    unfold Nat.toDigits; rw [he]; rfl
  have hgt : ¬ n > ULONG_MAX := Nat.not_lt.mpr h
  unfold strtoul
  simp only [ht, hhead, Option.some.injEq, f4, f5, or_self, if_false, hv, hgt]

/-! ## The relay loop -/

/-- C1: the layout of `struct minivtun_msg` is the wire-format table: digest in
bytes 0..15, opcode the single byte at offset 16, header length 17; the 2-byte
protocol id at offset 17, the 2-byte length at offset 19, the payload at offset
21 with capacity 8192; the whole message is 8213 bytes, the sum of the field
sizes (no padding); the opcodes are NOOP = 0, IPDATA = 1, DISCONNECT = 2. -/
theorem minivtun_msg_layout :
    packedOffsetof minivtun_msg "hdr" = some 0 ∧
    packedOffsetof hdr "passwd_md5sum" = some 0 ∧ memberSize hdr "passwd_md5sum" = some 16 ∧
    packedOffsetof hdr "opcode" = some 16 ∧ memberSize hdr "opcode" = some 1 ∧
    MINIVTUN_MSG_BASIC_HLEN = 17 ∧
    ipdataOffsetof "proto" = some 17 ∧ memberSize ipdata "proto" = some 2 ∧
    ipdataOffsetof "ip_dlen" = some 19 ∧ memberSize ipdata "ip_dlen" = some 2 ∧
    MINIVTUN_MSG_IPDATA_OFFSET = some 21 ∧ memberSize ipdata "data" = some 8192 ∧
    packedSizeof minivtun_msg = 8213 ∧
    packedSizeof minivtun_msg = 16 + 1 + 2 + 2 + 8192 ∧
    MINIVTUN_MSG_NOOP = some 0 ∧ MINIVTUN_MSG_IPDATA = some 1 ∧
    MINIVTUN_MSG_DISCONNECT = some 2 := by
  decide

/-- C2 as stated fails: with `-l 0.0.0.0:1000 -h` a local binding address was
given, yet `main` does not call `run_server`: it exits with status 0. -/
theorem main_role_iff_counterexample :
    given 'l' [optWith 'l' "0.0.0.0:1000", flag 'h'] = true ∧
    main envOk [optWith 'l' "0.0.0.0:1000", flag 'h'] = ⟨[], .exit 0⟩ ∧
    (main envOk [optWith 'l' "0.0.0.0:1000", flag 'h']).outcome.isServer = false := by
  decide

/-- C2, amended: `main` never starts both roles; it calls `run_server` only if
`-l` was given and `run_client` only if `-r` was given and `-l` was not; and for
every run that reaches the final `if` (no exit and no buffer overrun before
it), `run_server` is called if and only if `-l` was given, `run_client` if and
only if `-r` was given and `-l` was not, and with neither option the run ends
with exit status 1. -/
theorem main_role_selection (env : Env) (args : List GetoptResult) :
    ¬ ((main env args).outcome.isServer = true ∧ (main env args).outcome.isClient = true) ∧
    ((main env args).outcome.isServer = true → given 'l' args = true) ∧
    ((main env args).outcome.isClient = true →
      given 'r' args = true ∧ given 'l' args = false) ∧
    (reachesRoleSelection env args = true →
      ((main env args).outcome.isServer = true ↔ given 'l' args = true) ∧
      ((main env args).outcome.isClient = true ↔
        given 'r' args = true ∧ given 'l' args = false) ∧
      (given 'l' args = false → given 'r' args = false →
        (main env args).outcome = .exit 1)) := by
  unfold reachesRoleSelection main
  cases hs : main_setup env args with
  | error run =>
    obtain ⟨e1, e2, -, -⟩ := main_setup_error hs
    simp [e1, e2]
  | ok p =>
    obtain ⟨t, g, l⟩ := p
    obtain ⟨s1, s2, s3, -, -⟩ := select_role_spec g l
    obtain ⟨a1, a2⟩ := main_setup_addr hs
    have hl : l.loc_addr_pair = none ↔ given 'l' args = false := by
      rw [← not_iff_not, ← Ne, a1]; simp
    have hr : l.peer_addr_pair = none ↔ given 'r' args = false := by
      rw [← not_iff_not, ← Ne, a2]; simp
    dsimp only
    rw [s1, s2, a1, a2, hl]
    refine ⟨?_, id, id, fun _ => ⟨Iff.rfl, Iff.rfl, ?_⟩⟩
    · rintro ⟨h1, -, h2⟩
      rw [h1] at h2
      cases h2
    · intro h1 h2
      exact s3 (hl.mpr h1) (hr.mpr h2)

/-- Witness for `main_role_selection`: with `-r 1.2.3.4:1000` alone the final
`if` is reached and `run_client` is called. -/
theorem main_role_selection_witness :
    reachesRoleSelection envOk [optWith 'r' "1.2.3.4:1000"] = true ∧
    (main envOk [optWith 'r' "1.2.3.4:1000"]).outcome.isClient = true :=
  ⟨by decide,
   ((main_role_selection envOk [optWith 'r' "1.2.3.4:1000"]).2.2.2 (by decide)).2.1.mpr
     (by decide)⟩

/-- C3: for every command line without `-t`, when the server or client is
started the keepalive interval is 7 and the reconnect timeout is 26. -/
theorem default_timeouts (env : Env) (args : List GetoptResult) (g : Globals)
    (hno : given 't' args = false)
    (hrole : (main env args).outcome.roleGlobals = some g) :
    g.g_keepalive_timeo = 7 ∧ g.g_reconnect_timeo = 26 := by
  obtain ⟨t, l, hs, -⟩ := main_role hrole
  obtain ⟨g0, h0, k1, k2, -⟩ := main_setup_ok hs
  obtain ⟨a1, a2, -⟩ := optionLoop_ok h0
  rw [k1, k2, a1, a2, lastOr_not_given hno]
  exact ⟨rfl, rfl⟩

/-- Witness for `default_timeouts`: the server started by `-l 0.0.0.0:1000`. -/
theorem default_timeouts_witness :
    given 't' [optWith 'l' "0.0.0.0:1000"] = false ∧
    (main envOk [optWith 'l' "0.0.0.0:1000"]).outcome.roleGlobals =
      some ⟨7, 26, none, "p2p0".toList, 1408⟩ ∧
    (7 = 7 ∧ 26 = 26) :=
  ⟨by decide, by decide,
   default_timeouts envOk [optWith 'l' "0.0.0.0:1000"] ⟨7, 26, none, "p2p0".toList, 1408⟩
     (by decide) (by decide)⟩

/-- C4 as stated fails: with `-N -e secret -l 0.0.0.0:1000` the option `-N`
appears, yet `run_server` is started with the passphrase "secret". -/
theorem passwd_with_N_counterexample :
    given 'N' [flag 'N', optWith 'e' "secret", optWith 'l' "0.0.0.0:1000"] = true ∧
    (main envOk [flag 'N', optWith 'e' "secret", optWith 'l' "0.0.0.0:1000"]).outcome =
      .run_server ⟨7, 26, none, "p2p0".toList, 1408⟩ (some "secret".toList)
        "0.0.0.0:1000".toList := by
  decide

/-- C4, amended: for every command line in which `-N` appears and no `-e`
follows the last `-N`, the passphrase passed to `run_server` / `run_client`
is NULL. -/
theorem passwd_null_after_N (env : Env) (before after : List GetoptResult) (x : CStr)
    (p : Option CStr) (hafter : given 'e' after = false)
    (hrole : (main env (before ++ ⟨'N', x⟩ :: after)).outcome.rolePasswd = some p) :
    p = none :=
  main_passwd_after_N env before after x p hafter hrole

/-- Witness for `passwd_null_after_N`: `-e secret -N -l 0.0.0.0:1000` starts the
server with a NULL passphrase. -/
theorem passwd_null_after_N_witness :
    (main envOk ([optWith 'e' "secret"] ++ flag 'N' :: [optWith 'l' "0.0.0.0:1000"])).outcome.rolePasswd
      = some none ∧ (none : Option CStr) = none :=
  ⟨by decide,
   passwd_null_after_N envOk [optWith 'e' "secret"] [optWith 'l' "0.0.0.0:1000"] [] none
     (by decide) (by decide)⟩

/-- C5 as stated fails: `-l 0.0.0.0:1000` (no `-e`) starts the server with the
empty string as passphrase, the same command line with `-N` added starts it
with NULL: the two passphrase arguments differ. -/
theorem passwd_empty_eq_null_counterexample :
    (main envOk [optWith 'l' "0.0.0.0:1000"]).outcome.rolePasswd = some (some []) ∧
    (main envOk [optWith 'l' "0.0.0.0:1000", flag 'N']).outcome.rolePasswd = some none ∧
    (main envOk [optWith 'l' "0.0.0.0:1000"]).outcome.rolePasswd ≠
      (main envOk [optWith 'l' "0.0.0.0:1000", flag 'N']).outcome.rolePasswd := by
  decide

/-- C5, amended: a command line without `-N` that gives no `-e`, or `-e` only
with the empty string, starts the role with the empty string (a non-NULL
pointer) as passphrase, whereas the command line that adds `-N` after every
`-e` starts it with NULL. -/
theorem passwd_empty_vs_null (env : Env) (before after : List GetoptResult) (x : CStr)
    (he : ∀ r ∈ before ++ after, r.opt = 'e' → r.optarg = [])
    (hN : given 'N' (before ++ after) = false)
    (hafter : given 'e' after = false) :
    (∀ p, (main env (before ++ after)).outcome.rolePasswd = some p → p = some []) ∧
    (∀ q, (main env (before ++ ⟨'N', x⟩ :: after)).outcome.rolePasswd = some q →
      q = none) := by
  constructor
  · intro p hrole
    obtain ⟨g, hg⟩ := rolePasswd_roleGlobals hrole
    obtain ⟨t, l, hs, hp⟩ := main_role hg
    rw [hp] at hrole
    cases hrole
    obtain ⟨g0, h0, -⟩ := main_setup_ok hs
    exact optionLoop_passwd_empty h0 he hN rfl
  · intro q hrole
    exact main_passwd_after_N env before after x q hafter hrole

/-- Witness for `passwd_empty_vs_null`: `-e "" -l 0.0.0.0:1000` passes the
empty string, `-e "" -N -l 0.0.0.0:1000` passes NULL. -/
theorem passwd_empty_vs_null_witness :
    (main envOk ([optWith 'e' ""] ++ [optWith 'l' "0.0.0.0:1000"])).outcome.rolePasswd
      = some (some []) ∧
    (main envOk ([optWith 'e' ""] ++ flag 'N' :: [optWith 'l' "0.0.0.0:1000"])).outcome.rolePasswd
      = some none ∧
    (some [] : Option CStr) = some [] ∧ (none : Option CStr) = none :=
  ⟨by decide, by decide,
   (passwd_empty_vs_null envOk [optWith 'e' ""] [optWith 'l' "0.0.0.0:1000"] []
     (by decide) (by decide) (by decide)).1 (some []) (by decide),
   (passwd_empty_vs_null envOk [optWith 'e' ""] [optWith 'l' "0.0.0.0:1000"] []
     (by decide) (by decide) (by decide)).2 none (by decide)⟩

/-- C7 as stated fails: `-m 9000` is accepted, and `main` configures MTU 9000
on the interface, more than the 8192-byte payload capacity. -/
theorem mtu_within_payload_counterexample :
    main envOk [optWith 'm' "9000", optWith 'l' "0.0.0.0:1000"] =
      ⟨[.system "ifconfig p2p0 mtu 9000; ifconfig p2p0 up".toList],
       .run_server ⟨7, 26, none, "p2p0".toList, 9000⟩ (some []) "0.0.0.0:1000".toList⟩ ∧
    memberSize ipdata "data" = some 8192 ∧ ¬ (9000 ≤ 8192) := by
  decide

/-- C7, amended: `main` applies no cap to the MTU.  In every run that reaches
the final `if`, the interface was brought up with `g_tun_mtu`, which is 1408
(the default) without `-m` and otherwise exactly the converted argument of the
last `-m`; so it is at most the 8192-byte payload capacity of
`struct minivtun_msg` when that argument's value is (and for the default). -/
theorem configured_mtu (env : Env) (args : List GetoptResult) (t : List Effect)
    (g : Globals) (l : Locals) (hreach : main_setup env args = .ok (t, g, l)) :
    (∃ cmd, Effect.system cmd ∈ t ∧
      cmd = "ifconfig ".toList ++ (g.g_devname ++ (" mtu ".toList ++
        (fmtUnsigned g.g_tun_mtu ++ ("; ifconfig ".toList ++
          (g.g_devname ++ " up".toList)))))) ∧
    g.g_tun_mtu = lastOr 'm' args (fun a => toUnsigned (strtoul a)) 1408 ∧
    (given 'm' args = false → g.g_tun_mtu = 1408) ∧
    (∀ a, lastArg 'm' args = some a → toUnsigned (strtoul a) ≤ 8192 →
      g.g_tun_mtu ≤ 8192) ∧
    memberSize ipdata "data" = some 8192 := by
  obtain ⟨g0, h0, -, -, k3, -, cmd, hcmd, hmem⟩ := main_setup_ok hreach
  obtain ⟨-, -, a3, -⟩ := optionLoop_ok h0
  have hm : g.g_tun_mtu = lastOr 'm' args (fun a => toUnsigned (strtoul a)) 1408 := by
    rw [k3, a3]; rfl
  refine ⟨⟨cmd, hmem, bring_up_text hcmd⟩, hm, ?_, ?_, by decide⟩
  · intro hno
    rw [hm, lastOr_not_given hno]
  · intro a ha hle
    rw [hm]
    unfold lastOr
    rw [ha]
    exact hle

/-- Witness for `configured_mtu`: `-m 1500 -l 0.0.0.0:1000` reaches the final
`if` with MTU 1500. -/
theorem configured_mtu_witness :
    main_setup envOk [optWith 'm' "1500", optWith 'l' "0.0.0.0:1000"] =
      .ok ([.system "ifconfig p2p0 mtu 1500; ifconfig p2p0 up".toList],
        ⟨7, 26, none, "p2p0".toList, 1500⟩,
        ⟨none, none, some "0.0.0.0:1000".toList, none, some [], false⟩) ∧
    (1500 : Nat) ≤ 8192 :=
  ⟨by decide,
   (configured_mtu envOk [optWith 'm' "1500", optWith 'l' "0.0.0.0:1000"]
      [.system "ifconfig p2p0 mtu 1500; ifconfig p2p0 up".toList]
      ⟨7, 26, none, "p2p0".toList, 1500⟩
      ⟨none, none, some "0.0.0.0:1000".toList, none, some [], false⟩ (by decide)).2.2.2.1
      "1500".toList (by decide) (by decide)⟩

/-- C8, the failing input: with `-r 1.2.3.4:1000 -a 11111111111111111111/2` the
slash is at index 20, so after the copy of 20 characters into the 20-byte
buffer `s_lip` the terminator is written to `s_lip[20]`, past its end. -/
theorem s_lip_overrun :
    strchr "11111111111111111111/2".toList '/' = some 20 ∧ sizeof_s_lip = 20 ∧
    main envOk [optWith 'r' "1.2.3.4:1000", optWith 'a' "11111111111111111111/2"] =
      ⟨[], .buffer_overrun⟩ := by
  decide

/-- C9 as stated fails: `-t 4294967296` is a `-t` value of 26 or more, yet the
server is started with keepalive interval 0, smaller than the reconnect
timeout 26: the conversion to `unsigned` wraps. -/
theorem keepalive_wraps_counterexample :
    "4294967296".toList = Nat.toDigits 10 4294967296 ∧ 26 ≤ 4294967296 ∧
    (main envOk [optWith 't' "4294967296", optWith 'l' "0.0.0.0:1000"]).outcome =
      .run_server ⟨0, 26, none, "p2p0".toList, 1408⟩ (some []) "0.0.0.0:1000".toList ∧
    ¬ (26 ≤ 0) := by
  decide

/-- C9, amended: the reconnect timeout cannot be set from the command line: for
every command line, when a role is started `g_reconnect_timeo` is 26, and the
keepalive interval is 7 without `-t` and otherwise the converted argument of
the last `-t`.  When that argument is the decimal numeral of a number up to
`ULONG_MAX`, the keepalive interval is that number modulo 2^32; so for `-t`
values from 26 to 2^32-1 the keepalive interval is the value given and is not
smaller than the reconnect timeout. -/
theorem reconnect_timeo_fixed (env : Env) (args : List GetoptResult) (g : Globals)
    (hrole : (main env args).outcome.roleGlobals = some g) :
    g.g_reconnect_timeo = 26 ∧
    g.g_keepalive_timeo = lastOr 't' args (fun a => toUnsigned (strtoul a)) 7 ∧
    (∀ n, lastArg 't' args = some (Nat.toDigits 10 n) → n ≤ ULONG_MAX →
      g.g_keepalive_timeo = n % 2 ^ 32) ∧
    (∀ n, lastArg 't' args = some (Nat.toDigits 10 n) → 26 ≤ n → n ≤ UINT_MAX →
      g.g_keepalive_timeo = n ∧ g.g_reconnect_timeo ≤ g.g_keepalive_timeo) := by
  obtain ⟨t, l, hs, -⟩ := main_role hrole
  obtain ⟨g0, h0, k1, k2, -⟩ := main_setup_ok hs
  obtain ⟨a1, a2, -⟩ := optionLoop_ok h0
  have hk : g.g_keepalive_timeo = lastOr 't' args (fun a => toUnsigned (strtoul a)) 7 := by
    rw [k1, a2]; rfl
  have hr : g.g_reconnect_timeo = 26 := by rw [k2, a1]; rfl
  have hn : ∀ n, lastArg 't' args = some (Nat.toDigits 10 n) → n ≤ ULONG_MAX →
      g.g_keepalive_timeo = n % 2 ^ 32 := by
    intro n ha hle
    rw [hk]
    unfold lastOr
    rw [ha]
    dsimp only
    rw [strtoul_toDigits n hle]
    rfl
  refine ⟨hr, hk, hn, ?_⟩
  intro n ha hge hle
  have hle2 : n ≤ ULONG_MAX := by
    unfold UINT_MAX at hle
    unfold ULONG_MAX
    omega
  have hmod : n % 2 ^ 32 = n := by
    unfold UINT_MAX at hle
    omega
  have hv : g.g_keepalive_timeo = n := by rw [hn n ha hle2, hmod]
  exact ⟨hv, by rw [hr, hv]; exact hge⟩

/-- Witness for `reconnect_timeo_fixed`: the server started by
`-t 30 -l 0.0.0.0:1000` has keepalive 30 and reconnect timeout 26. -/
theorem reconnect_timeo_fixed_witness :
    (main envOk [optWith 't' "30", optWith 'l' "0.0.0.0:1000"]).outcome.roleGlobals =
      some ⟨30, 26, none, "p2p0".toList, 1408⟩ ∧
    lastArg 't' [optWith 't' "30", optWith 'l' "0.0.0.0:1000"] = some (Nat.toDigits 10 30) ∧
    ((30 : Nat) = 30 % 2 ^ 32) ∧ ((30 : Nat) = 30 ∧ 26 ≤ 30) :=
  ⟨by decide, by decide,
   (reconnect_timeo_fixed envOk [optWith 't' "30", optWith 'l' "0.0.0.0:1000"]
     ⟨30, 26, none, "p2p0".toList, 1408⟩ (by decide)).2.2.1 30 (by decide) (by decide),
   (reconnect_timeo_fixed envOk [optWith 't' "30", optWith 'l' "0.0.0.0:1000"]
     ⟨30, 26, none, "p2p0".toList, 1408⟩ (by decide)).2.2.2 30 (by decide) (by decide)
     (by decide)⟩

/-- C10: for every interface name of at most 19 characters and every MTU value
from 0 to 2^32-1, the command `ifconfig <name> mtu <mtu>; ifconfig <name> up` has
length at most 76, so it and its terminator fit the 100-byte `cmd` buffer and
the command is run. -/
theorem bring_up_fits (g : Globals)
    (hname : strlen g.g_devname ≤ sizeof_g_devname - 1)
    (hmtu : g.g_tun_mtu ≤ UINT_MAX) :
    ∃ cmd, bring_up g = .ok [Effect.system cmd] ∧
      cmd = "ifconfig ".toList ++ (g.g_devname ++ (" mtu ".toList ++
        (fmtUnsigned g.g_tun_mtu ++ ("; ifconfig ".toList ++
          (g.g_devname ++ " up".toList))))) ∧
      strlen cmd ≤ 76 ∧ strlen cmd + 1 ≤ sizeof_cmd := by
  have hd := fmtUnsigned_length hmtu
  have hlen : strlen (format "ifconfig %s mtu %u; ifconfig %s up".toList
      [.s g.g_devname, .u g.g_tun_mtu, .s g.g_devname]) ≤ 76 := by
    rw [format_bring_up]
    unfold strlen sizeof_g_devname at *
    simp only [List.length_append]
    have e1 : "ifconfig ".toList.length = 9 := rfl
    have e2 : " mtu ".toList.length = 5 := rfl
    have e3 : "; ifconfig ".toList.length = 11 := rfl
    have e4 : " up".toList.length = 3 := rfl
    omega
  refine ⟨_, ?_, format_bring_up _ _, hlen, ?_⟩
  · unfold bring_up sprintf
    have : strlen (format "ifconfig %s mtu %u; ifconfig %s up".toList
      [.s g.g_devname, .u g.g_tun_mtu, .s g.g_devname]) + 1 ≤ sizeof_cmd := by
      unfold sizeof_cmd; omega
    simp only [this, if_true]
  · unfold sizeof_cmd; omega

/-- Witness for `bring_up_fits`: the default name and the largest MTU. -/
theorem bring_up_fits_witness :
    strlen "p2p%d".toList ≤ sizeof_g_devname - 1 ∧ 4294967295 ≤ UINT_MAX ∧
    ∃ cmd, bring_up ⟨7, 26, none, "p2p%d".toList, 4294967295⟩ = .ok [Effect.system cmd] ∧
      cmd = "ifconfig ".toList ++ ("p2p%d".toList ++ (" mtu ".toList ++
        (fmtUnsigned 4294967295 ++ ("; ifconfig ".toList ++
          ("p2p%d".toList ++ " up".toList))))) ∧
      strlen cmd ≤ 76 ∧ strlen cmd + 1 ≤ sizeof_cmd :=
  ⟨by decide, by decide,
   bring_up_fits ⟨7, 26, none, "p2p%d".toList, 4294967295⟩ (by decide) (by decide)⟩

end Minivtun
